import Mathlib

/-!
A shallow embedding of `python_service/hailo_service.py` (the pillama
Python service): the `HailoService` state, its operations `load_model`,
`chat_completion`, `get_model_info`, `get_context_usage`, `release`, the
WebSocket handler `handle_model_info`, and a cooperative-interleaving model
of two concurrent generation sessions scheduled by the asyncio event loop.

External, opaque collaborators (the `hailo_platform` runtime: `VDevice`,
`LLM`, the filesystem) are modelled by an environment record `Env` of
oracles; each oracle answers what the corresponding call would return or
raise.  Side effects on the accelerator (handle creation and release) are
recorded in an explicit effect trace so that ordering and resource-liveness
properties can be stated.  Wall-clock timing fields (`eval_duration`,
`total_duration`) and the fixed inter-token sleep are elided: they carry no
control-flow significance.
-/

namespace Pillama

/-- One entry of `config['hailo']['models']` (a Python dict); each field is
`none` when the corresponding key is absent. -/
structure ModelConfig where
  hef_path : Option String
  family : Option String
  parameter_size : Option String
  fmt : Option String
deriving DecidableEq

/-- Python truthiness of a model-config dict: `if not model_config:` is
taken when the dict is missing or empty, i.e. has none of the keys. -/
def configNonEmpty (c : ModelConfig) : Bool :=
  c.hef_path.isSome || c.family.isSome || c.parameter_size.isSome || c.fmt.isSome

/-- `self.models_config.get(name)`: association-list lookup by model name. -/
def lookupConfig : List (String × ModelConfig) → String → Option ModelConfig
  | [], _ => none
  | (k, v) :: rest, n => if k = n then some v else lookupConfig rest n

/-- An `LLM` object held by the service.  `id` is the opaque runtime handle;
`loadedAs` is ghost data recording the model name under which `load_model`
created it (line 82-83 of the source assigns the handle and the name
together). -/
structure LLMHandle where
  id : Nat
  loadedAs : String
deriving DecidableEq

/-- The mutable fields of a `HailoService` instance, plus the module-level
`HAILO_AVAILABLE` flag (fixed at import time, never written afterwards). -/
structure HailoState where
  hailo_available : Bool
  vdevice : Option Nat
  llm : Option LLMHandle
  current_model : Option String
  models_config : List (String × ModelConfig)
deriving DecidableEq

/-- Observable side effects on the accelerator runtime, in call order. -/
inductive Effect where
  | releaseLLM (id : Nat)
  | loadLLM (id : Nat) (model_name : String)
  | releaseVDevice (id : Nat)
deriving DecidableEq

/-- What one `self.llm.generate(...)` call produces: the token strings
yielded before the iteration ends, and `fault = some msg` when pulling the
next token (or entering the generator) raises with message `msg`. -/
structure GenOutcome where
  tokens : List String
  fault : Option String
deriving DecidableEq

/-- Oracles for the opaque `hailo_platform` collaborators: each field
answers what the corresponding external call returns or raises. -/
structure Env where
  pathExists : String → Bool
  vdeviceNew : Except String Nat
  llmNew : String → Except String Nat
  llmReleaseRaises : Nat → Option String
  vdeviceReleaseRaises : Nat → Option String
  generate : Nat → List (String × String) → GenOutcome
  contextUsage : Nat → Except String Nat

/-- Events yielded by `chat_completion`.  A `complete` carries
`eval_count = none` on the mock path (the mock completion dict has no
`eval_count` key) and `some n` on the accelerator path. -/
inductive Event where
  | token (content : String)
  | complete (content : String) (eval_count : Option Nat)
  | error (content : String)
deriving DecidableEq

/-- Messages the WebSocket handlers send back on the connection. -/
structure ModelInfo where
  name : String
  family : String
  parameter_size : String
  fmt : String
  hef_path : Option String
deriving DecidableEq

inductive OutMsg where
  | model_info (info : ModelInfo)
  | error (content : String)
deriving DecidableEq

/-- `HailoService.__init__`: store the config, leave `llm` and
`current_model` unset, and initialize the `VDevice` only when the platform
imported; a constructor fault is caught and leaves `vdevice = None`. -/
def initService (env : Env) (hailo_available : Bool)
    (models_config : List (String × ModelConfig)) : HailoState :=
  { hailo_available
    vdevice :=
      if hailo_available then
        match env.vdeviceNew with
        | .ok d => some d
        | .error _ => none
      else none
    llm := none
    current_model := none
    models_config }

/-- Result of `load_model`: the returned `bool`, the service state after
the call, and the accelerator effects performed. -/
structure LoadResult where
  ok : Bool
  state : HailoState
  trace : List Effect
deriving DecidableEq

/-- `HailoService.load_model`, transcribed branch by branch:
availability gate; already-loaded short-circuit; config lookup with dict
truthiness; `hef_path` truthiness and existence check; then the `try`
block: release the previous `LLM` if any (a raise here is caught and
returns `False` with the state untouched), construct the new `LLM` (a
raise is caught and returns `False`), and on success set `llm` and
`current_model`. -/
def load_model (env : Env) (s : HailoState) (model_name : String) : LoadResult :=
  if !s.hailo_available || s.vdevice.isNone then
    ⟨false, s, []⟩
  else if s.current_model = some model_name ∧ s.llm.isSome then
    ⟨true, s, []⟩
  else
    match lookupConfig s.models_config model_name with
    | none => ⟨false, s, []⟩
    | some model_config =>
      if !configNonEmpty model_config then ⟨false, s, []⟩
      else
        match model_config.hef_path with
        | none => ⟨false, s, []⟩
        | some hef =>
          if hef = "" || !env.pathExists hef then ⟨false, s, []⟩
          else
            match s.llm with
            | some h =>
              match env.llmReleaseRaises h.id with
              | some _ => ⟨false, s, []⟩
              | none =>
                match env.llmNew hef with
                | .error _ => ⟨false, { s with llm := none }, [.releaseLLM h.id]⟩
                | .ok i =>
                  ⟨true,
                   { s with llm := some ⟨i, model_name⟩, current_model := some model_name },
                   [.releaseLLM h.id, .loadLLM i model_name]⟩
            | none =>
              match env.llmNew hef with
              | .error _ => ⟨false, s, []⟩
              | .ok i =>
                ⟨true,
                 { s with llm := some ⟨i, model_name⟩, current_model := some model_name },
                 [.loadLLM i model_name]⟩

/-- The fixed sentence of the mock generator. -/
def mock_response : String :=
  "This is a mock response. Hailo platform is not available or model not loaded."

/-- Helper for `pySplit`: walk the characters, accumulating the current
word (reversed); a space ends the current word, runs of spaces produce no
empty words. -/
def splitWordsAux : List Char → List Char → List String
  | [], cur => if cur.isEmpty then [] else [String.mk cur.reverse]
  | c :: cs, cur =>
    if c = ' ' then
      if cur.isEmpty then splitWordsAux cs []
      else String.mk cur.reverse :: splitWordsAux cs []
    else splitWordsAux cs (c :: cur)

/-- Python `str.split()` with no argument: split on whitespace runs,
dropping empty pieces (the mock sentence contains only single spaces, so
only the space character needs handling). -/
def pySplit (s : String) : List String :=
  splitWordsAux s.toList []

/-- Result of one `chat_completion` call: the events yielded in order, the
state after the call, and the accelerator effects performed. -/
structure ChatResult where
  events : List Event
  state : HailoState
  trace : List Effect
deriving DecidableEq

/-- `HailoService.chat_completion`, transcribed: the mock gate tests
`not HAILO_AVAILABLE or self.llm is None`; the mock path streams
`word + ' '` per word of the fixed sentence when `stream` and otherwise
yields one `complete` carrying the whole sentence, then returns; the real
path calls `load_model` (yielding one `error` on failure), then consumes
the generator, yielding each token only when `stream`, and finishes with
one `complete` (buffer if not streaming, empty string if streaming) or,
if pulling tokens raised, one `error`.  The unreachable `none` fallback
mirrors the `AttributeError` the `try` block would catch were `llm` unset
after a successful load (`load_model_ok_llm` below shows it cannot be). -/
def chat_completion (env : Env) (s : HailoState)
    (messages : List (String × String)) (model : String) (stream : Bool) :
    ChatResult :=
  if !s.hailo_available || s.llm.isNone then
    if stream then
      ⟨(pySplit mock_response).map (fun word => .token (word ++ " ")), s, []⟩
    else
      ⟨[.complete mock_response none], s, []⟩
  else
    let r := load_model env s model
    if !r.ok then
      ⟨[.error ("Failed to load model: " ++ model)], r.state, r.trace⟩
    else
      match r.state.llm with
      | none => ⟨[.error "NoneType object has no attribute generate"], r.state, r.trace⟩
      | some h =>
        let g := env.generate h.id messages
        let tokenEvents := if stream then g.tokens.map .token else []
        match g.fault with
        | some msg => ⟨tokenEvents ++ [.error msg], r.state, r.trace⟩
        | none =>
          ⟨tokenEvents ++
             [.complete (if stream then "" else String.join g.tokens) (some g.tokens.length)],
           r.state, r.trace⟩

/-- `HailoService.get_model_info`: dict lookup (a `None` name finds no
entry), dict truthiness (`if not model_config: return None`), then the
info dict with per-key defaults. -/
def get_model_info (s : HailoState) (model_name : Option String) : Option ModelInfo :=
  match model_name with
  | none => none
  | some n =>
    match lookupConfig s.models_config n with
    | none => none
    | some model_config =>
      if !configNonEmpty model_config then none
      else
        some { name := n
               family := model_config.family.getD "unknown"
               parameter_size := model_config.parameter_size.getD "unknown"
               fmt := model_config.fmt.getD "hef"
               hef_path := model_config.hef_path }

/-- Python `str(x)` on an optional string: the literal `None` when absent,
as interpolated by the f-string in `handle_model_info`. -/
def pyStrOfOpt : Option String → String
  | none => "None"
  | some s => s

/-- `WebSocketServer.handle_model_info`: look the model up and send exactly
one message — the info on success, otherwise one error naming the request's
model value.  The method performs no writes, so the state is returned
unchanged. -/
def handle_model_info (s : HailoState) (req_model : Option String) :
    List OutMsg × HailoState :=
  match get_model_info s req_model with
  | some info => ([.model_info info], s)
  | none => ([.error ("Model not found: " ++ pyStrOfOpt req_model)], s)

/-- `HailoService.get_context_usage`: guarded best-effort query whose
failures are swallowed to `0`.  The method performs no writes, so the
state is returned unchanged. -/
def get_context_usage (env : Env) (s : HailoState) : Nat × HailoState :=
  (match s.llm with
   | some h =>
     if s.hailo_available then
       match env.contextUsage h.id with
       | .ok n => n
       | .error _ => 0
     else 0
   | none => 0,
   s)

/-- Result of `HailoService.release`: `raised = some msg` when an
uncaught exception with message `msg` propagated out of the method. -/
structure ReleaseResult where
  raised : Option String
  state : HailoState
  trace : List Effect
deriving DecidableEq

/-- Second half of `HailoService.release`: release the `VDevice` if
present.  There is no `try` around it; a raise propagates. -/
def releaseVDevicePart (env : Env) (s : HailoState) (tr : List Effect) :
    ReleaseResult :=
  match s.vdevice with
  | some d =>
    match env.vdeviceReleaseRaises d with
    | some e => ⟨some e, s, tr⟩
    | none => ⟨none, { s with vdevice := none }, tr ++ [.releaseVDevice d]⟩
  | none => ⟨none, s, tr⟩

/-- `HailoService.release`, transcribed: release the `LLM` if present,
then the `VDevice` if present.  There is no `try`/`finally`; if
`self.llm.release()` raises, the exception propagates and the `VDevice`
branch is never reached. -/
def release (env : Env) (s : HailoState) : ReleaseResult :=
  match s.llm with
  | some h =>
    match env.llmReleaseRaises h.id with
    | some e => ⟨some e, s, []⟩
    | none => releaseVDevicePart env { s with llm := none } [.releaseLLM h.id]
  | none => releaseVDevicePart env s []

/-! ### Trace liveness

A handle is live from its `loadLLM` effect until its `releaseLLM` effect.
`liveAfter c tr` is the number of live `LLM` handles after running the
effects of `tr` from `c` live handles; `liveBoundedB c tr` checks that no
point of the run ever holds two live handles at once. -/

/-- Live `LLM`-handle count after an effect trace, starting from `c`. -/
def liveAfter : Nat → List Effect → Nat
  | c, [] => c
  | c, .loadLLM _ _ :: tr => liveAfter (c + 1) tr
  | c, .releaseLLM _ :: tr => liveAfter (c - 1) tr
  | c, .releaseVDevice _ :: tr => liveAfter c tr

/-- `true` when, starting from `c` live handles, the trace never brings
two `LLM` handles to exist simultaneously. -/
def liveBoundedB : Nat → List Effect → Bool
  | _, [] => true
  | c, .loadLLM _ _ :: tr => decide (c + 1 ≤ 1) && liveBoundedB (c + 1) tr
  | c, .releaseLLM _ :: tr => liveBoundedB (c - 1) tr
  | c, .releaseVDevice _ :: tr => liveBoundedB c tr

/-- Number of `LLM` handles the service state currently holds. -/
def countOf (s : HailoState) : Nat :=
  if s.llm.isSome then 1 else 0

/-! ### Concurrent sessions

The service runs on one asyncio event loop: one task per connection,
interleaved only at suspension points (`await`/`yield`).  `load_model` is
a synchronous method with no `await` inside, so a session's activate step
is one atomic step; each token yielded by the generation loop crosses a
suspension point (`websocket.send`), so consecutive token pulls of one
session may have other tasks' steps between them.  A session program is
therefore: one atomic activate step, then `runLen` token-pull steps, then
a finishing step. -/

/-- Program counter of one generation session task. -/
inductive SPhase where
  | notStarted
  | running (k : Nat)
  | finished
deriving DecidableEq

/-- Request parameters of one session: the model it activates and how many
token-pull suspension points its generation has. -/
structure SessionSpec where
  model : String
  runLen : Nat
deriving DecidableEq

/-- Shared state of the event loop: the service state, the accumulated
accelerator effect trace, and both tasks' program counters. -/
structure CState where
  hs : HailoState
  trace : List Effect
  t0 : SPhase
  t1 : SPhase
deriving DecidableEq

/-- One scheduled step of one session task. -/
def stepTask (env : Env) (spec : SessionSpec) (hs : HailoState)
    (tr : List Effect) (ph : SPhase) : HailoState × List Effect × SPhase :=
  match ph with
  | .notStarted =>
    let r := load_model env hs spec.model
    (r.state, tr ++ r.trace, if r.ok then .running spec.runLen else .finished)
  | .running 0 => (hs, tr, .finished)
  | .running (k + 1) => (hs, tr, .running k)
  | .finished => (hs, tr, .finished)

/-- The event loop runs one step of task `0` (`tid = false`) or task `1`
(`tid = true`). -/
def step (env : Env) (sp0 sp1 : SessionSpec) (cs : CState) (tid : Bool) :
    CState :=
  if tid then
    let r := stepTask env sp1 cs.hs cs.trace cs.t1
    { hs := r.1, trace := r.2.1, t0 := cs.t0, t1 := r.2.2 }
  else
    let r := stepTask env sp0 cs.hs cs.trace cs.t0
    { hs := r.1, trace := r.2.1, t0 := r.2.2, t1 := cs.t1 }

/-- Run a whole schedule (a list of task choices) from a configuration. -/
def runSched (env : Env) (sp0 sp1 : SessionSpec) : CState → List Bool → CState
  | cs, [] => cs
  | cs, t :: rest => runSched env sp0 sp1 (step env sp0 sp1 cs t) rest

/-- Initial configuration: both sessions pending, no effects yet. -/
def initC (hs : HailoState) : CState :=
  ⟨hs, [], .notStarted, .notStarted⟩

/-- A session whose activate has succeeded and whose run has not finished
is in flight on the Execution Context. -/
def inFlight : SPhase → Bool
  | .running _ => true
  | _ => false

/-- The token content of an event, `none` for the terminal events. -/
def tokenContent? : Event → Option String
  | .token c => some c
  | _ => none

/-- Whether an event is terminal (`complete` or `error`). -/
def isTerminal : Event → Bool
  | .token _ => false
  | .complete _ _ => true
  | .error _ => true

/-- Whether an effect is a model load. -/
def isLoadEffect : Effect → Bool
  | .loadLLM _ _ => true
  | _ => false

/-! ### Concrete fixtures

A two-model registry and a family of environments used to evaluate the
operations on concrete inputs. -/

def cfgAB : List (String × ModelConfig) :=
  [("a", ⟨some "/models/a.hef", some "llama", some "1b", some "hef"⟩),
   ("b", ⟨some "/models/b.hef", some "llama", some "3b", some "hef"⟩)]

/-- A healthy accelerator: device initializes, both artifacts exist, loads
and releases succeed, generation yields two tokens and completes. -/
def envOK : Env where
  pathExists := fun _ => true
  vdeviceNew := .ok 9
  llmNew := fun hef => if hef = "/models/a.hef" then .ok 0 else .ok 1
  llmReleaseRaises := fun _ => none
  vdeviceReleaseRaises := fun _ => none
  generate := fun _ _ => ⟨["Hello", " world"], none⟩
  contextUsage := fun _ => .ok 5

/-- Like `envOK`, except constructing the `LLM` for model `b` raises. -/
def envBfail : Env :=
  { envOK with
    llmNew := fun hef => if hef = "/models/a.hef" then .ok 0 else .error "load failed" }

/-- Like `envOK`, except `LLM.release` raises. -/
def envBoom : Env :=
  { envOK with llmReleaseRaises := fun _ => some "boom" }

/-- A fresh service whose device initialized successfully. -/
def sFresh : HailoState := initService envOK true cfgAB

/-- The state after successfully loading model `a`. -/
def sA : HailoState := (load_model envOK sFresh "a").state

/-- A fresh service on a host without the `hailo_platform` package. -/
def sNoHailo : HailoState := initService envOK false cfgAB

def spA : SessionSpec := ⟨"a", 2⟩

def spB : SessionSpec := ⟨"b", 2⟩

/-! ### The Execution Context state invariant -/

/-- The state invariant of the spec's data model: a model handle exists
only under the name it was loaded as, and only while a device handle
exists. -/
def Inv (s : HailoState) : Prop :=
  (∀ h, s.llm = some h → s.current_model = some h.loadedAs) ∧
  (s.llm.isSome → s.vdevice.isSome)

/-! ### Helper lemmas -/

/-- Case characterization of `load_model`: the call either fails leaving
the state untouched, short-circuits on the already-loaded model, fails
after releasing the previous handle, or succeeds (with or without a
previous handle to release). -/
theorem load_model_spec (env : Env) (s : HailoState) (name : String) :
    (load_model env s name = ⟨false, s, []⟩) ∨
    (load_model env s name = ⟨true, s, []⟩ ∧ s.current_model = some name ∧
      s.llm.isSome = true ∧ s.hailo_available = true ∧ s.vdevice.isSome = true) ∨
    (∃ h, s.llm = some h ∧ s.hailo_available = true ∧ s.vdevice.isSome = true ∧
      load_model env s name = ⟨false, { s with llm := none }, [.releaseLLM h.id]⟩) ∨
    (∃ h i, s.llm = some h ∧ s.hailo_available = true ∧ s.vdevice.isSome = true ∧
      load_model env s name =
        ⟨true, { s with llm := some ⟨i, name⟩, current_model := some name },
         [.releaseLLM h.id, .loadLLM i name]⟩) ∨
    (∃ i, s.llm = none ∧ s.hailo_available = true ∧ s.vdevice.isSome = true ∧
      load_model env s name =
        ⟨true, { s with llm := some ⟨i, name⟩, current_model := some name },
         [.loadLLM i name]⟩) := by
  unfold load_model
  split
  · exact Or.inl rfl
  · rename_i hgate
    simp only [Bool.or_eq_true, Bool.not_eq_true', Option.isNone_iff_eq_none] at hgate
    push_neg at hgate
    obtain ⟨hA0, hV⟩ := hgate
    have hA : s.hailo_available = true := by simpa using hA0
    have hV' : s.vdevice.isSome = true := by
      cases hd : s.vdevice with
      | none => exact absurd hd hV
      | some d => rfl
    split
    · rename_i hsc
      exact Or.inr (Or.inl ⟨rfl, hsc.1, hsc.2, hA, hV'⟩)
    · split
      · exact Or.inl rfl
      · split
        · exact Or.inl rfl
        · split
          · exact Or.inl rfl
          · split
            · exact Or.inl rfl
            · split
              · rename_i h hrel
                split
                · exact Or.inl rfl
                · split
                  · rename_i herr
                    exact Or.inr (Or.inr (Or.inl ⟨h, ‹_›, hA, hV', rfl⟩))
                  · rename_i i hok
                    exact Or.inr (Or.inr (Or.inr (Or.inl ⟨h, i, ‹_›, hA, hV', rfl⟩)))
              · rename_i hnone
                split
                · exact Or.inl rfl
                · rename_i i hok
                  exact Or.inr (Or.inr (Or.inr (Or.inr ⟨i, hnone, hA, hV', rfl⟩)))

/-- After a successful `load_model name`, the state names `name` as
current, holds a handle, and still passes the availability gate. -/
theorem load_model_ok_post (env : Env) (s : HailoState) (name : String)
    (hok : (load_model env s name).ok = true) :
    (load_model env s name).state.current_model = some name ∧
    (load_model env s name).state.llm.isSome = true ∧
    (load_model env s name).state.hailo_available = true ∧
    (load_model env s name).state.vdevice.isSome = true := by
  rcases load_model_spec env s name with hEq | ⟨hEq, h1, h2, h3, h4⟩ |
    ⟨h, hl, hA, hV, hEq⟩ | ⟨h, i, hl, hA, hV, hEq⟩ | ⟨i, hl, hA, hV, hEq⟩ <;>
    simp_all [hEq]

/-- A failed `load_model` leaves the state untouched or merely clears the
handle; it never installs a half-loaded handle. -/
theorem load_model_fail_state (env : Env) (s : HailoState) (name : String)
    (hf : (load_model env s name).ok = false) :
    (load_model env s name).state = s ∨
    (load_model env s name).state = { s with llm := none } := by
  rcases load_model_spec env s name with hEq | ⟨hEq, h1, h2, h3, h4⟩ |
    ⟨h, hl, hA, hV, hEq⟩ | ⟨h, i, hl, hA, hV, hEq⟩ | ⟨i, hl, hA, hV, hEq⟩ <;>
    simp_all [hEq]

/-- `load_model` never touches the device handle. -/
theorem load_model_vdevice (env : Env) (s : HailoState) (name : String) :
    (load_model env s name).state.vdevice = s.vdevice := by
  rcases load_model_spec env s name with hEq | ⟨hEq, h1, h2, h3, h4⟩ |
    ⟨h, hl, hA, hV, hEq⟩ | ⟨h, i, hl, hA, hV, hEq⟩ | ⟨i, hl, hA, hV, hEq⟩ <;>
    simp_all [hEq]

/-- `load_model` preserves the Execution Context state invariant. -/
theorem load_model_inv (env : Env) (s : HailoState) (name : String)
    (hInv : Inv s) : Inv (load_model env s name).state := by
  obtain ⟨hI1, hI2⟩ := hInv
  rcases load_model_spec env s name with hEq | ⟨hEq, h1, h2, h3, h4⟩ |
    ⟨h, hl, hA, hV, hEq⟩ | ⟨h, i, hl, hA, hV, hEq⟩ | ⟨i, hl, hA, hV, hEq⟩ <;> rw [hEq]
  · exact ⟨hI1, hI2⟩
  · exact ⟨hI1, hI2⟩
  · exact ⟨by intro h' hh'; simp at hh', by intro hs; simp at hs⟩
  · refine ⟨?_, ?_⟩
    · intro h' hh'
      simp only [Option.some.injEq] at hh'
      subst hh'
      rfl
    · intro _
      simpa using hV
  · refine ⟨?_, ?_⟩
    · intro h' hh'
      simp only [Option.some.injEq] at hh'
      subst hh'
      rfl
    · intro _
      simpa using hV

/-- The effect trace of one `load_model` call never brings two `LLM`
handles to exist at once, and its net effect matches the state. -/
theorem load_model_live (env : Env) (s : HailoState) (name : String) :
    liveBoundedB (countOf s) (load_model env s name).trace = true ∧
    liveAfter (countOf s) (load_model env s name).trace
      = countOf (load_model env s name).state := by
  rcases load_model_spec env s name with hEq | ⟨hEq, h1, h2, h3, h4⟩ |
    ⟨h, hl, hA, hV, hEq⟩ | ⟨h, i, hl, hA, hV, hEq⟩ | ⟨i, hl, hA, hV, hEq⟩ <;>
    simp_all [hEq, countOf, liveBoundedB, liveAfter]

/-- When a handle was present and `load_model` performed any accelerator
effect, the first effect is the release of that handle. -/
theorem load_model_head (env : Env) (s : HailoState) (name : String)
    (h : LLMHandle) (hl : s.llm = some h)
    (hne : (load_model env s name).trace ≠ []) :
    (load_model env s name).trace.head? = some (.releaseLLM h.id) := by
  rcases load_model_spec env s name with hEq | ⟨hEq, h1, h2, h3, h4⟩ |
    ⟨h', hl', hA, hV, hEq⟩ | ⟨h', i, hl', hA, hV, hEq⟩ | ⟨i, hl', hA, hV, hEq⟩ <;>
    simp_all [hEq]

/-- One `load_model` call performs the underlying load at most once. -/
theorem load_model_loadcount (env : Env) (s : HailoState) (name : String) :
    ((load_model env s name).trace.filter isLoadEffect).length ≤ 1 := by
  rcases load_model_spec env s name with hEq | ⟨hEq, h1, h2, h3, h4⟩ |
    ⟨h, hl, hA, hV, hEq⟩ | ⟨h, i, hl, hA, hV, hEq⟩ | ⟨i, hl, hA, hV, hEq⟩ <;>
    simp_all [hEq, isLoadEffect]

/-- `chat_completion` either leaves the state alone (mock path) or hands
back exactly the state and effects of its `load_model` call. -/
theorem chat_state_or (env : Env) (s : HailoState)
    (msgs : List (String × String)) (model : String) (stream : Bool) :
    ((chat_completion env s msgs model stream).state = s ∧
       (chat_completion env s msgs model stream).trace = []) ∨
    ((chat_completion env s msgs model stream).state = (load_model env s model).state ∧
       (chat_completion env s msgs model stream).trace = (load_model env s model).trace) := by
  unfold chat_completion
  split
  · split <;> exact Or.inl ⟨rfl, rfl⟩
  · simp only
    split
    · exact Or.inr ⟨rfl, rfl⟩
    · split
      · exact Or.inr ⟨rfl, rfl⟩
      · split <;> exact Or.inr ⟨rfl, rfl⟩

theorem liveAfter_append (tr1 tr2 : List Effect) (c : Nat) :
    liveAfter c (tr1 ++ tr2) = liveAfter (liveAfter c tr1) tr2 := by
  induction tr1 generalizing c with
  | nil => rfl
  | cons e tr ih => cases e <;> simp [liveAfter, ih]

theorem liveBoundedB_append (tr1 tr2 : List Effect) (c : Nat) :
    liveBoundedB c (tr1 ++ tr2)
      = (liveBoundedB c tr1 && liveBoundedB (liveAfter c tr1) tr2) := by
  induction tr1 generalizing c with
  | nil => rfl
  | cons e tr ih => cases e <;> simp [liveBoundedB, liveAfter, ih, Bool.and_assoc]

theorem stepTask_traceInv (env : Env) (spec : SessionSpec) (hs : HailoState)
    (tr : List Effect) (ph : SPhase) (c0 : Nat)
    (hb : liveBoundedB c0 tr = true) (ha : liveAfter c0 tr = countOf hs) :
    liveBoundedB c0 (stepTask env spec hs tr ph).2.1 = true ∧
    liveAfter c0 (stepTask env spec hs tr ph).2.1
      = countOf (stepTask env spec hs tr ph).1 := by
  cases ph with
  | notStarted =>
    obtain ⟨hb', ha'⟩ := load_model_live env hs spec.model
    simp only [stepTask]
    rw [liveBoundedB_append, liveAfter_append, ha]
    exact ⟨by rw [hb, hb']; rfl, ha'⟩
  | running k => cases k <;> simp [stepTask, hb, ha]
  | finished => simp [stepTask, hb, ha]

theorem step_traceInv (env : Env) (sp0 sp1 : SessionSpec) (cs : CState)
    (tid : Bool) (c0 : Nat)
    (hb : liveBoundedB c0 cs.trace = true)
    (ha : liveAfter c0 cs.trace = countOf cs.hs) :
    liveBoundedB c0 (step env sp0 sp1 cs tid).trace = true ∧
    liveAfter c0 (step env sp0 sp1 cs tid).trace
      = countOf (step env sp0 sp1 cs tid).hs := by
  cases tid <;> simp only [step] <;>
    exact stepTask_traceInv env _ cs.hs cs.trace _ c0 hb ha

theorem runSched_traceInv (env : Env) (sp0 sp1 : SessionSpec)
    (sched : List Bool) (cs : CState) (c0 : Nat)
    (hb : liveBoundedB c0 cs.trace = true)
    (ha : liveAfter c0 cs.trace = countOf cs.hs) :
    liveBoundedB c0 (runSched env sp0 sp1 cs sched).trace = true ∧
    liveAfter c0 (runSched env sp0 sp1 cs sched).trace
      = countOf (runSched env sp0 sp1 cs sched).hs := by
  induction sched generalizing cs with
  | nil => exact ⟨hb, ha⟩
  | cons t rest ih =>
    obtain ⟨hb', ha'⟩ := step_traceInv env sp0 sp1 cs t c0 hb ha
    exact ih _ hb' ha'

theorem release_inv (env : Env) (s : HailoState) (hInv : Inv s) :
    Inv (release env s).state := by
  unfold release releaseVDevicePart
  split
  · rename_i h hl
    split
    · exact hInv
    · split
      · split
        · exact ⟨by intro h' hh'; simp_all, by intro hs; simp_all⟩
        · exact ⟨by intro h' hh'; simp_all, by intro hs; simp_all⟩
      · exact ⟨by intro h' hh'; simp_all, by intro hs; simp_all⟩
  · rename_i hl
    split
    · split
      · exact hInv
      · exact ⟨by intro h' hh'; simp_all [hInv.1 h' hh'], by intro hs; simp_all⟩
    · exact hInv

theorem release_live (env : Env) (s : HailoState) :
    liveBoundedB (countOf s) (release env s).trace = true := by
  unfold release releaseVDevicePart
  split
  · split
    · rfl
    · split
      · split <;> simp [liveBoundedB]
      · simp [liveBoundedB]
  · split
    · split <;> simp [liveBoundedB]
    · rfl

/-- A state that already holds `name` loaded short-circuits `load_model`
to an immediate success with no accelerator effects. -/
theorem load_model_noop (env : Env) (st : HailoState) (name : String)
    (h1 : st.current_model = some name) (h2 : st.llm.isSome = true)
    (h3 : st.hailo_available = true) (h4 : st.vdevice.isSome = true) :
    load_model env st name = ⟨true, st, []⟩ := by
  have hg : (!st.hailo_available || st.vdevice.isNone) = false := by
    rw [h3]
    cases hv : st.vdevice with
    | none => rw [hv] at h4; simp at h4
    | some d => rfl
  unfold load_model
  rw [hg]
  simp only [Bool.false_eq_true, if_false]
  rw [if_pos ⟨h1, h2⟩]

theorem filterMap_token_id (l : List String) :
    l.filterMap (tokenContent? ∘ Event.token) = l := by
  induction l with
  | nil => rfl
  | cons x xs ih => simp [List.filterMap_cons, tokenContent?, Function.comp, ih]

/-- Events of `chat_completion` on the accelerator path after a successful
load: the streamed tokens (when streaming) followed by the single terminal
event determined by the generation outcome. -/
theorem chat_events_real (env : Env) (s : HailoState)
    (msgs : List (String × String)) (model : String) (stream : Bool)
    (hg : (!s.hailo_available || s.llm.isNone) = false)
    (hok : (load_model env s model).ok = true)
    (h : LLMHandle) (hsl : (load_model env s model).state.llm = some h) :
    (chat_completion env s msgs model stream).events =
      (if stream then (env.generate h.id msgs).tokens.map Event.token else []) ++
      (match (env.generate h.id msgs).fault with
       | some msg => [Event.error msg]
       | none => [Event.complete
           (if stream then "" else String.join (env.generate h.id msgs).tokens)
           (some (env.generate h.id msgs).tokens.length)]) := by
  simp only [chat_completion, hg, Bool.false_eq_true, if_false, hok,
             Bool.not_true, hsl]
  cases hf : (env.generate h.id msgs).fault <;> simp [hf]

/-- Events of `chat_completion` on the accelerator path when the load
fails: the single error event naming the model. -/
theorem chat_events_fail (env : Env) (s : HailoState)
    (msgs : List (String × String)) (model : String) (stream : Bool)
    (hg : (!s.hailo_available || s.llm.isNone) = false)
    (hok : (load_model env s model).ok = false) :
    (chat_completion env s msgs model stream).events
      = [Event.error ("Failed to load model: " ++ model)] := by
  simp only [chat_completion, hg, Bool.false_eq_true, if_false, hok,
             Bool.not_false, if_pos]

theorem release_vdevice (env : Env) (s : HailoState) :
    (release env s).state.vdevice = s.vdevice ∨
    (release env s).state.vdevice = none := by
  unfold release releaseVDevicePart
  split
  · split
    · exact Or.inl rfl
    · split
      · split
        · exact Or.inl rfl
        · exact Or.inr rfl
      · exact Or.inl rfl
  · split
    · split
      · exact Or.inl rfl
      · exact Or.inr rfl
    · exact Or.inl rfl

/-! ### The claims -/

/-- Claim C1: on a fresh service whose platform imported and whose device
initialized successfully (and whose model `a` is loadable, as the third
conjunct shows), a streaming chat request is nonetheless answered by the
synthetic mock generator: no accelerator effect is performed and the
events are exactly the mock token stream.  The mock gate tests
`self.llm is None`, not device availability, so the accelerator path is
never entered. -/
theorem chat_completion_mocks_despite_device :
    sFresh.hailo_available = true ∧ sFresh.vdevice = some 9 ∧
    (load_model envOK sFresh "a").ok = true ∧
    (chat_completion envOK sFresh [] "a" true).trace = [] ∧
    (chat_completion envOK sFresh [] "a" true).events
      = (pySplit mock_response).map (fun w => Event.token (w ++ " ")) :=
  ⟨rfl, rfl, rfl, rfl, rfl⟩

/-- Claim C2: a mock-mode streaming request emits a nonempty sequence of
events containing no terminal event at all — the mock streaming branch
returns after its token loop without yielding `Complete` or `Error`,
violating the one-terminal-event contract. -/
theorem mock_stream_missing_terminal :
    (chat_completion envOK sNoHailo [] "m" true).events ≠ [] ∧
    ((chat_completion envOK sNoHailo [] "m" true).events.filter isTerminal) = [] :=
  ⟨by decide, by decide⟩

/-- Claim C3: with the accelerator unavailable, a streaming request yields
exactly one `Token` event per word of the fixed mock sentence (each word
carrying an appended space), and no `Complete` event follows: every
emitted event is a token. -/
theorem mock_stream_tokens_no_complete :
    (chat_completion envOK sNoHailo [] "mock" true).events
      = (pySplit mock_response).map (fun w => Event.token (w ++ " ")) ∧
    (chat_completion envOK sNoHailo [] "mock" true).events.all
      (fun e => !isTerminal e) = true :=
  ⟨rfl, by decide⟩

/-- Claim C4 counterexample: with model `a` active, a `load_model "b"`
whose underlying load raises returns failure with the handle cleared but
`current_model` still naming `a` — the state is not "no active model"
(no handle and no name) as the claim requires. -/
theorem load_model_failure_keeps_name :
    (load_model envBfail sA "b").ok = false ∧
    (load_model envBfail sA "b").state.llm = none ∧
    (load_model envBfail sA "b").state.current_model = some "a" ∧
    (load_model envBfail sA "b").state.current_model ≠ none :=
  ⟨rfl, rfl, rfl, by decide⟩

/-- Claim C4 (amended): a failed `load_model` returns the state either
untouched or with only the handle cleared — never a half-loaded handle —
and `current_model` keeps its previous value (it is not unset); whenever a
previous handle existed and any accelerator effect was performed, the
first effect is the release of that previous handle, so the old handle is
released before the new load is attempted. -/
theorem load_model_failure_no_half_load (env : Env) (s : HailoState) (name : String) :
    ((load_model env s name).ok = false →
       ((load_model env s name).state = s ∨
        (load_model env s name).state = { s with llm := none }) ∧
       (load_model env s name).state.current_model = s.current_model) ∧
    (∀ h, s.llm = some h → (load_model env s name).trace ≠ [] →
       (load_model env s name).trace.head? = some (.releaseLLM h.id)) := by
  constructor
  · intro hf
    rcases load_model_fail_state env s name hf with h | h <;> rw [h] <;> simp
  · exact fun h hl hne => load_model_head env s name h hl hne

/-- Claim C4 witness: the amended theorem applied to the concrete failing
load of model `b` over an active model `a`. -/
theorem load_model_failure_no_half_load_witness :
    (load_model envBfail sA "b").ok = false ∧
    ((load_model envBfail sA "b").state = sA ∨
     (load_model envBfail sA "b").state = { sA with llm := none }) ∧
    sA.llm = some ⟨0, "a"⟩ ∧
    (load_model envBfail sA "b").trace.head? = some (.releaseLLM 0) :=
  ⟨rfl, ((load_model_failure_no_half_load envBfail sA "b").1 rfl).1, rfl,
   (load_model_failure_no_half_load envBfail sA "b").2 ⟨0, "a"⟩ rfl (by decide)⟩

/-- Claim C5 counterexample: when the model-handle release raises, the
exception propagates out of `release` and the device handle is neither
released nor cleared — the device-release step does not occur, so the
device resource leaks, contrary to the claim. -/
theorem release_skips_device_on_raise :
    (release envBoom sA).raised = some "boom" ∧
    (release envBoom sA).state.vdevice = some 9 ∧
    (release envBoom sA).state.llm = some ⟨0, "a"⟩ ∧
    (release envBoom sA).trace = [] :=
  ⟨rfl, rfl, rfl, rfl⟩

/-- Claim C5 (amended): when no release step raises, `release` clears
both handles, releasing the model handle strictly before the device
handle; but when the model-handle release raises, the exception
propagates, the state is unchanged, and the device release is skipped. -/
theorem release_ordered (env : Env) (s : HailoState) :
    ((release env s).raised = none →
       (release env s).state.llm = none ∧
       (release env s).state.vdevice = none ∧
       (release env s).trace =
         (match s.llm with
          | some h => [Effect.releaseLLM h.id]
          | none => []) ++
         (match s.vdevice with
          | some d => [Effect.releaseVDevice d]
          | none => [])) ∧
    (∀ h e, s.llm = some h → env.llmReleaseRaises h.id = some e →
       release env s = ⟨some e, s, []⟩) := by
  constructor
  · intro hok
    cases hl : s.llm with
    | none =>
      cases hd : s.vdevice with
      | none => simp [release, releaseVDevicePart, hl, hd]
      | some d =>
        cases hvr : env.vdeviceReleaseRaises d with
        | some e =>
          rw [release] at hok
          simp only [hl, hd, hvr, releaseVDevicePart] at hok
          exact Option.noConfusion hok
        | none => simp [release, releaseVDevicePart, hl, hd, hvr]
    | some h =>
      cases hr : env.llmReleaseRaises h.id with
      | some e =>
        rw [release] at hok
        simp only [hl, hr] at hok
        exact Option.noConfusion hok
      | none =>
        cases hd : s.vdevice with
        | none => simp [release, releaseVDevicePart, hl, hr, hd]
        | some d =>
          cases hvr : env.vdeviceReleaseRaises d with
          | some e =>
            rw [release] at hok
            simp only [hl, hr, hd, hvr, releaseVDevicePart] at hok
            exact Option.noConfusion hok
          | none => simp [release, releaseVDevicePart, hl, hr, hd, hvr]
  · intro h e hl hr
    simp [release, hl, hr]

/-- Claim C5 witness: the amended theorem applied to a clean release of
the loaded service and to the raising release. -/
theorem release_ordered_witness :
    (release envOK sA).raised = none ∧
    (release envOK sA).state.llm = none ∧
    (release envOK sA).state.vdevice = none ∧
    release envBoom sA = ⟨some "boom", sA, []⟩ :=
  ⟨rfl, ((release_ordered envOK sA).1 rfl).1, ((release_ordered envOK sA).1 rfl).2.1,
   (release_ordered envBoom sA).2 ⟨0, "a"⟩ "boom" rfl rfl⟩

/-- Claim C6 counterexample: there is no mutual exclusion around the
Execution Context — under the schedule that runs session 0's activate,
then session 1's activate, both sessions are in flight simultaneously
(session 1's activate executed while session 0's run was in flight, and
released session 0's handle out from under it). -/
theorem unserialized_activate_during_run :
    inFlight (runSched envOK spA spB (initC sFresh) [false, true]).t0 = true ∧
    inFlight (runSched envOK spA spB (initC sFresh) [false, true]).t1 = true ∧
    (runSched envOK spA spB (initC sFresh) [false, true]).trace
      = [.loadLLM 0 "a", .releaseLLM 0, .loadLLM 1 "b"] :=
  ⟨rfl, rfl, rfl⟩

/-- Claim C6 (amended): although activate/run are not serialized, in every
interleaving of two concurrent sessions the accelerator effect trace never
has two model handles live at the same instant — `load_model` always
releases the previous handle before creating a new one. -/
theorem no_two_live_handles (env : Env) (sp0 sp1 : SessionSpec)
    (hs : HailoState) (sched : List Bool) :
    liveBoundedB (countOf hs) (runSched env sp0 sp1 (initC hs) sched).trace = true :=
  (runSched_traceInv env sp0 sp1 sched (initC hs) (countOf hs) rfl rfl).1

/-- Claim C7 counterexample: in mock mode the single `Complete` of a
non-streaming request carries the fixed sentence, while the tokens the
same request would stream concatenate to the sentence plus a trailing
space — the two differ, contrary to the claim's equality. -/
theorem nonstream_mock_mismatch :
    (chat_completion envOK sNoHailo [] "m7" false).events
      = [.complete mock_response none] ∧
    String.join
      ((chat_completion envOK sNoHailo [] "m7" true).events.filterMap tokenContent?)
      = mock_response ++ " " ∧
    mock_response ≠ mock_response ++ " " :=
  ⟨rfl, by decide, by decide⟩

/-- Claim C7 (amended): a non-streaming request never emits a `Token`
event; on the accelerator path its single `Complete` content equals the
concatenation of the tokens the same generation streams with
`stream=true`; on the mock path the `Complete` carries the fixed sentence
while the streamed tokens concatenate to the sentence plus one trailing
space. -/
theorem nonstream_matches_stream (env : Env) (s : HailoState)
    (msgs : List (String × String)) (model : String) :
    ((chat_completion env s msgs model false).events.filterMap tokenContent? = []) ∧
    (s.hailo_available = true → s.llm.isSome = true →
      ∀ c n, Event.complete c n ∈ (chat_completion env s msgs model false).events →
        c = String.join
              ((chat_completion env s msgs model true).events.filterMap tokenContent?)) ∧
    ((!s.hailo_available || s.llm.isNone) = true →
      (chat_completion env s msgs model false).events = [.complete mock_response none] ∧
      String.join ((chat_completion env s msgs model true).events.filterMap tokenContent?)
        = mock_response ++ " ") := by
  refine ⟨?_, ?_, ?_⟩
  · unfold chat_completion
    split
    · simp [tokenContent?]
    · simp only
      split
      · simp [tokenContent?]
      · split
        · simp [tokenContent?]
        · split <;> simp [tokenContent?, List.filterMap_append]
  · intro hA hL c n hc
    have hg : (!s.hailo_available || s.llm.isNone) = false := by
      rw [hA]
      cases hv : s.llm with
      | none => rw [hv] at hL; simp at hL
      | some h0 => rfl
    cases hok : (load_model env s model).ok with
    | false =>
      rw [chat_events_fail env s msgs model false hg hok] at hc
      simp at hc
    | true =>
      obtain ⟨hm, hsl⟩ := Option.isSome_iff_exists.mp
        (load_model_ok_post env s model hok).2.1
      rw [chat_events_real env s msgs model false hg hok hm hsl] at hc
      rw [chat_events_real env s msgs model true hg hok hm hsl]
      cases hf : (env.generate hm.id msgs).fault with
      | some msg =>
        rw [hf] at hc
        simp at hc
      | none =>
        rw [hf] at hc
        simp only [Bool.false_eq_true, if_false, List.nil_append,
                   List.mem_singleton, Event.complete.injEq] at hc
        rw [hc.1]
        simp [tokenContent?, List.filterMap_append, List.filterMap_map,
              filterMap_token_id]
  · intro hm
    rw [chat_completion, hm]
    rw [chat_completion, hm]
    simp only [if_pos]
    exact ⟨rfl, by decide⟩

/-- Claim C7 witness: the amended theorem applied to the loaded service,
whose non-streaming `Complete` content `Hello world` equals the
concatenation of the two streamed tokens. -/
theorem nonstream_matches_stream_witness :
    (chat_completion envOK sA [] "a" false).events.filterMap tokenContent? = [] ∧
    ("Hello world" : String) = String.join
      ((chat_completion envOK sA [] "a" true).events.filterMap tokenContent?) := by
  have h := nonstream_matches_stream envOK sA [] "a"
  exact ⟨h.1, h.2.1 rfl rfl "Hello world" (some 2) (by decide)⟩

/-- Claim C8: after a successful `load_model name`, calling it again with
the same name is a no-op returning success with the cached state and no
accelerator effects, and the first call performed the underlying load at
most once. -/
theorem load_model_idempotent (env : Env) (s : HailoState) (name : String)
    (hok : (load_model env s name).ok = true) :
    load_model env (load_model env s name).state name
      = ⟨true, (load_model env s name).state, []⟩ ∧
    ((load_model env s name).trace.filter isLoadEffect).length ≤ 1 := by
  obtain ⟨h1, h2, h3, h4⟩ := load_model_ok_post env s name hok
  exact ⟨load_model_noop env _ name h1 h2 h3 h4, load_model_loadcount env s name⟩

/-- Claim C8 witness: the idempotence theorem applied to the concrete
successful load of model `a`. -/
theorem load_model_idempotent_witness :
    (load_model envOK sFresh "a").ok = true ∧
    load_model envOK sA "a" = ⟨true, sA, []⟩ :=
  ⟨rfl, (load_model_idempotent envOK sFresh "a" rfl).1⟩

/-- Claim C9: every service operation preserves the Execution Context
invariant — the handle exists only under the name it was loaded as and
only with a device handle present — never touches the device handle except
to clear it, never brings two handles live at once, and
`get_context_usage` performs no state change at all. -/
theorem service_ops_preserve_invariant (env : Env) (s : HailoState)
    (name : String) (msgs : List (String × String)) (model : String)
    (stream : Bool) (hInv : Inv s) :
    Inv (load_model env s name).state ∧
    (load_model env s name).state.vdevice = s.vdevice ∧
    liveBoundedB (countOf s) (load_model env s name).trace = true ∧
    Inv (chat_completion env s msgs model stream).state ∧
    (chat_completion env s msgs model stream).state.vdevice = s.vdevice ∧
    liveBoundedB (countOf s) (chat_completion env s msgs model stream).trace = true ∧
    Inv (release env s).state ∧
    ((release env s).state.vdevice = s.vdevice ∨ (release env s).state.vdevice = none) ∧
    liveBoundedB (countOf s) (release env s).trace = true ∧
    (get_context_usage env s).2 = s := by
  refine ⟨load_model_inv env s name hInv, load_model_vdevice env s name,
          (load_model_live env s name).1, ?_, ?_, ?_,
          release_inv env s hInv, release_vdevice env s, release_live env s, rfl⟩
  · rcases chat_state_or env s msgs model stream with ⟨h1, _⟩ | ⟨h1, _⟩
    · rw [h1]; exact hInv
    · rw [h1]; exact load_model_inv env s model hInv
  · rcases chat_state_or env s msgs model stream with ⟨h1, _⟩ | ⟨h1, _⟩
    · rw [h1]
    · rw [h1]; exact load_model_vdevice env s model
  · rcases chat_state_or env s msgs model stream with ⟨_, h2⟩ | ⟨_, h2⟩
    · rw [h2]; rfl
    · rw [h2]; exact (load_model_live env s model).1

/-- Claim C9 witness: the invariant holds of the fresh service and is
preserved by a concrete load and a concrete release. -/
theorem service_ops_preserve_invariant_witness :
    Inv sFresh ∧ Inv (load_model envOK sFresh "a").state ∧
    Inv (release envOK sFresh).state := by
  have hInv : Inv sFresh := ⟨fun h hh => Option.noConfusion hh, fun _ => rfl⟩
  have h := service_ops_preserve_invariant envOK sFresh "a" [] "a" true hInv
  exact ⟨hInv, h.1, h.2.2.2.2.2.2.1⟩

/-- Claim C10: a `model_info` request whose model field is absent or names
no configured model is answered with exactly one error event reading
`Model not found: ` followed by the requested value (the literal `None`
when absent), and the service state is unchanged. -/
theorem handle_model_info_not_found (s : HailoState) (req : Option String)
    (h : req = none ∨ ∃ n, req = some n ∧ lookupConfig s.models_config n = none) :
    handle_model_info s req
      = ([.error ("Model not found: " ++ pyStrOfOpt req)], s) := by
  rcases h with h | ⟨n, hn, hl⟩
  · subst h; rfl
  · subst hn
    simp [handle_model_info, get_model_info, hl]

/-- Claim C10 witness: the theorem applied to a request with the model
field absent. -/
theorem handle_model_info_not_found_witness :
    handle_model_info sFresh none = ([.error "Model not found: None"], sFresh) :=
  handle_model_info_not_found sFresh none (Or.inl rfl)

end Pillama
